import Mathlib

/-!
Shallow embedding of `src/wit.rs` (the `Querier` over a resolved WIT graph)
and proofs about its rendering, filtering and compatibility-check operations.

Conventions of the embedding:
* wit-parser's id-keyed arenas (`resolve.types`, `resolve.interfaces`,
  `resolve.packages`, `resolve.worlds`) become functions `Nat → Option _`.
* A Rust panic (`unwrap` on `None`, `todo!`, `unreachable!`, checked `u8`
  underflow) is a fatal abort; fallible query functions therefore return
  `Option _` with `none` for the abort, and the renderer returns
  `Except RenderErr String` with `RenderErr.panic` for it.
* The mutual recursion of `display_wit_type` / `display_wit_type_def` goes
  through the type arena, so the embedding carries a fuel counter that is
  consumed exactly at each arena indirection (`Type::Id`); exhaustion is the
  distinct outcome `RenderErr.fuelOut`, never confused with a panic.
-/

abbrev InterfaceId := Nat
abbrev PackageId := Nat
abbrev TypeId := Nat
abbrev WorldId := Nat

/-- Package name: namespace (e.g. "wasi"), name, optional version. -/
structure PackageName where
  nspace : String
  pname : String
  version : Option String
deriving DecidableEq

structure Package where
  name : PackageName
deriving DecidableEq

/-- Interface: only the owning-package field matters to this module. -/
structure Interface where
  package : Option PackageId
deriving DecidableEq

/-- wit-parser `Type`: primitive scalars or an indirection into the type arena. -/
inductive Ty where
  | bool | u8 | u16 | u32 | u64 | s8 | s16 | s32 | s64
  | float32 | float64 | string | char
  | id (i : TypeId)
deriving DecidableEq

/-- wit-parser `TypeDefKind`. Payloads of the kinds the renderer never reads
(resource, handle, flags, variant, future, stream) are dropped: the source
matches them with `_` and aborts. -/
inductive TypeDefKind where
  | option (t : Ty)
  | result (ok : Option Ty) (err : Option Ty)
  | type (t : Ty)
  | list (t : Ty)
  | tuple (ts : List Ty)
  | enum (cases : List String)
  | record (fields : List (String × Ty))
  | resource
  | handle
  | flags
  | variant
  | future
  | stream
  | unknown
deriving DecidableEq

structure TypeDef where
  name : Option String
  kind : TypeDefKind
deriving DecidableEq

/-- wit-parser `Results`: named result list or a single anonymous type. -/
inductive Results where
  | named (ps : List (String × Ty))
  | anon (t : Ty)
deriving DecidableEq

structure Function where
  fname : String
  params : List (String × Ty)
  results : Results
deriving DecidableEq

inductive WorldKey where
  | name (s : String)
  | interface (i : InterfaceId)
deriving DecidableEq

inductive WorldItem where
  | function (f : Function)
  | interface (i : InterfaceId)
  | type (t : TypeId)
deriving DecidableEq

/-- World: ordered import and export maps (IndexMap becomes an association
list in insertion order). -/
structure World where
  imports : List (WorldKey × WorldItem)
  exports : List (WorldKey × WorldItem)

/-- Resolved graph: the arenas the Querier reads, plus the graph's canonical
interface-name renderer. -/
structure Resolve where
  worlds : WorldId → Option World
  interfaces : InterfaceId → Option Interface
  packages : PackageId → Option Package
  types : TypeId → Option TypeDef
  interface_name_of : InterfaceId → String

/-- Modelled from the spec: wit-parser's `Resolve::name_world_key` (external
to this repository) renders a World Key to its display string — a bare name
renders as itself, an interface key through the graph's canonical
interface-name renderer (here the abstract field `interface_name_of`). -/
def Resolve.name_world_key (r : Resolve) : WorldKey → String
  | .name s => s
  | .interface i => r.interface_name_of i

/-- Rendering expansion mode (`Expansion` in the source, `Expanded(u8)`).
The level is carried as a `Nat`; the source's `col - 1` is `u8` arithmetic,
modelled as checked subtraction (underflow at 0 is a fatal abort). -/
inductive Expansion where
  | expanded (col : Nat)
  | collapsed
deriving DecidableEq

/-- Abort outcomes of the renderer: `panic` embeds a Rust panic
(`unwrap` / `todo!` / `unreachable!` / `u8` underflow), `fuelOut` is the
embedding's recursion-budget exhaustion (no Rust counterpart). -/
inductive RenderErr where
  | panic
  | fuelOut
deriving DecidableEq

abbrev Rendered := Except RenderErr String

def spacesOf (n : Nat) : String := String.mk (List.replicate n ' ')

/-- Renders the ": "-joined field text of one record field (the inner
closure of the record arm), given the already-chosen renderer `rec`. -/
def render_record_field (rec : Ty → Expansion → Rendered) (f : String × Ty) :
    Rendered :=
  (rec f.2 Expansion.collapsed).map (fun s => f.1 ++ ": " ++ s)

/-- One step of `Querier::display_wit_type_def`, parameterized by the
renderer `rec` used for every inner `display_wit_type` call (the fuel-indexed
knot is tied below). Follows `src/wit.rs` lines 107–186 arm by arm. -/
def display_wit_type_def_go (rec : Ty → Expansion → Rendered)
    (typ : TypeDef) (expansion : Expansion) : Rendered :=
  match typ.kind with
  | .option o =>
      (rec o Expansion.collapsed).map (fun s => "option<" ++ s ++ ">")
  | .result rok rerr =>
      match rok, rerr with
      | some o, some e => do
          let ok ← rec o Expansion.collapsed
          let err ← rec e Expansion.collapsed
          pure ("result<" ++ ok ++ ", " ++ err ++ ">")
      | some o, none =>
          (rec o Expansion.collapsed).map (fun t => "result<" ++ t ++ ">")
      | none, some e =>
          (rec e Expansion.collapsed).map (fun t => "result<" ++ t ++ ">")
      | none, none => pure "result"
  | .type t => rec t expansion
  | .list t =>
      (rec t Expansion.collapsed).map (fun s => "list<" ++ s ++ ">")
  | .tuple t => do
      let inner ← t.mapM (fun t => rec t Expansion.collapsed)
      pure ("tuple<" ++ String.intercalate ", " inner ++ ">")
  | .enum e =>
      match expansion with
      | .expanded col =>
          let fields :=
            String.intercalate ",\n"
              (e.map (fun c => spacesOf (col * 4) ++ c))
          match col with
          | 0 => .error .panic
          | Nat.succ c =>
              pure ("enum \x7b\n" ++ fields ++ "\n" ++ spacesOf (c * 4) ++ "\x7d")
      | .collapsed =>
          match typ.name with
          | some n => pure n
          | none => .error .panic
  | .record r => do
      match expansion with
      | .expanded col =>
          let fields ← r.mapM (render_record_field rec)
          let fields :=
            String.intercalate ",\n"
              (fields.map (fun f => spacesOf (col * 4) ++ f))
          match col with
          | 0 => .error .panic
          | Nat.succ c =>
              pure ("record \x7b\n" ++ fields ++ "\n" ++ spacesOf (c * 4) ++ "\x7d")
      | .collapsed =>
          match typ.name with
          | some n => pure n
          | none => .error .panic
  | .resource => .error .panic
  | .handle => .error .panic
  | .flags => .error .panic
  | .variant => .error .panic
  | .future => .error .panic
  | .stream => .error .panic
  | .unknown => .error .panic

/-- Fuel-indexed `Querier::display_wit_type`: primitives render to their WIT
keyword; `Type::Id` looks the definition up in the arena (a miss is the
source's `expect` panic) and hands it to `display_wit_type_def_go`, spending
one unit of fuel per indirection. -/
def display_wit_type_go (r : Resolve) : Nat → Ty → Expansion → Rendered
  | _, .bool, _ => pure "bool"
  | _, .u8, _ => pure "u8"
  | _, .u16, _ => pure "u16"
  | _, .u32, _ => pure "u32"
  | _, .u64, _ => pure "u64"
  | _, .s8, _ => pure "s8"
  | _, .s16, _ => pure "s16"
  | _, .s32, _ => pure "s32"
  | _, .s64, _ => pure "s64"
  | _, .float32, _ => pure "float32"
  | _, .float64, _ => pure "float64"
  | _, .string, _ => pure "string"
  | _, .char, _ => pure "char"
  | 0, .id _, _ => .error .fuelOut
  | Nat.succ fuel, .id i, expansion =>
      match r.types i with
      | some typ =>
          display_wit_type_def_go
            (fun t e => display_wit_type_go r fuel t e) typ expansion
      | none => .error .panic

structure Querier where
  resolve : Resolve
  world_id : WorldId

/-- `Querier::world`: `none` is the source's `expect` panic. -/
def Querier.world (q : Querier) : Option World :=
  q.resolve.worlds q.world_id

/-- `Querier::new`: validates that the world id resolves (else panic). -/
def Querier.new (resolve : Resolve) (world_id : WorldId) : Option Querier :=
  let this : Querier := ⟨resolve, world_id⟩
  match this.world with
  | some _ => some this
  | none => none

/-- `Querier::display_wit_type` at a given recursion budget. -/
def Querier.display_wit_type (q : Querier) (fuel : Nat) (t : Ty)
    (expansion : Expansion) : Rendered :=
  display_wit_type_go q.resolve fuel t expansion

/-- `Querier::display_wit_type_def` at a given recursion budget for the
inner `display_wit_type` calls. -/
def Querier.display_wit_type_def (q : Querier) (fuel : Nat) (typ : TypeDef)
    (expansion : Expansion) : Rendered :=
  display_wit_type_def_go (fun t e => display_wit_type_go q.resolve fuel t e)
    typ expansion

/-- `Querier::get_world_item_by_name`: first item whose rendered key equals
`name` (`find_map` over the ordered entries). -/
def Querier.get_world_item_by_name (q : Querier)
    (items : List (WorldKey × WorldItem)) (name : String) : Option WorldItem :=
  items.findSome? (fun p =>
    if q.resolve.name_world_key p.1 = name then some p.2 else none)

/-- `Querier::export` (outer `Option` is the `world()` panic; `export` is a
Lean keyword, hence the underscore). -/
def Querier.export_ (q : Querier) (name : String) : Option (Option WorldItem) :=
  q.world.map (fun w => q.get_world_item_by_name w.exports name)

/-- `Querier::import` (outer `Option` is the `world()` panic; `import` is a
Lean keyword, hence the underscore). -/
def Querier.import_ (q : Querier) (name : String) : Option (Option WorldItem) :=
  q.world.map (fun w => q.get_world_item_by_name w.imports name)

/-- `Querier::exported_function`: narrows `export` to the Function variant. -/
def Querier.exported_function (q : Querier) (name : String) :
    Option (Option Function) :=
  (q.export_ name).map (fun o =>
    match o with
    | some (.function f) => some f
    | _ => none)

/-- `Querier::imported_function`: narrows `import` to the Function variant. -/
def Querier.imported_function (q : Querier) (name : String) :
    Option (Option Function) :=
  (q.import_ name).map (fun o =>
    match o with
    | some (.function f) => some f
    | _ => none)

/-- `Querier::world_item_name`. -/
def Querier.world_item_name (q : Querier) (name : WorldKey) : String :=
  q.resolve.name_world_key name

/-- Loop body of `Querier::imports_wasi` over the remaining import entries.
A miss on `interfaces.get(id).unwrap()` is a panic (`none`); a miss on
`packages.get` is merely skipped (the source uses `if let`). -/
def imports_wasi_go (r : Resolve) : List (WorldKey × WorldItem) → Option Bool
  | [] => some false
  | (WorldKey.name _, _) :: rest => imports_wasi_go r rest
  | (WorldKey.interface interface_id, _) :: rest =>
      match r.interfaces interface_id with
      | none => none
      | some interface =>
          match interface.package with
          | some package_id =>
              match r.packages package_id with
              | some package =>
                  if package.name.nspace = "wasi" then some true
                  else imports_wasi_go r rest
              | none => imports_wasi_go r rest
          | none => imports_wasi_go r rest

/-- `Querier::imports_wasi`. -/
def Querier.imports_wasi (q : Querier) : Option Bool :=
  match q.world with
  | none => none
  | some world => imports_wasi_go q.resolve world.imports

/-- Loop body of `Querier::non_wasi_imports` (`filter_map`, fully iterated).
Both the interface lookup and the package lookup `unwrap` (panic on miss). -/
def non_wasi_imports_go (r : Resolve) :
    List (WorldKey × WorldItem) → Option (List (String × WorldItem))
  | [] => some []
  | (WorldKey.name s, imp) :: rest =>
      (non_wasi_imports_go r rest).map
        (fun l => (r.name_world_key (WorldKey.name s), imp) :: l)
  | (WorldKey.interface i, imp) :: rest =>
      match r.interfaces i with
      | none => none
      | some interface =>
          match interface.package with
          | some package_id =>
              match r.packages package_id with
              | none => none
              | some package =>
                  if package.name.nspace = "wasi" then
                    non_wasi_imports_go r rest
                  else
                    (non_wasi_imports_go r rest).map
                      (fun l => (r.name_world_key (WorldKey.interface i), imp) :: l)
          | none =>
              (non_wasi_imports_go r rest).map
                (fun l => (r.name_world_key (WorldKey.interface i), imp) :: l)

/-- `Querier::non_wasi_imports`, the produced iterator collected to a list. -/
def Querier.non_wasi_imports (q : Querier) :
    Option (List (String × WorldItem)) :=
  match q.world with
  | none => none
  | some world => non_wasi_imports_go q.resolve world.imports

/-- Loop body of `Querier::imports`: the filter tests the *item* — an
`Interface` item, when `include_wasi` is false, keeps the entry iff its
interface lacks a package or the package namespace is not "wasi"; both
lookups `unwrap`. Every other item passes. -/
def imports_go (r : Resolve) (include_wasi : Bool) :
    List (WorldKey × WorldItem) → Option (List (WorldKey × WorldItem))
  | [] => some []
  | (key, WorldItem.function f) :: rest =>
      (imports_go r include_wasi rest).map ((key, WorldItem.function f) :: ·)
  | (key, WorldItem.type t) :: rest =>
      (imports_go r include_wasi rest).map ((key, WorldItem.type t) :: ·)
  | (key, WorldItem.interface id) :: rest =>
      if include_wasi then
        (imports_go r include_wasi rest).map ((key, WorldItem.interface id) :: ·)
      else
        match r.interfaces id with
        | none => none
        | some interface =>
            match interface.package with
            | none =>
                (imports_go r include_wasi rest).map
                  ((key, WorldItem.interface id) :: ·)
            | some package_id =>
                match r.packages package_id with
                | none => none
                | some package =>
                    if package.name.nspace = "wasi" then
                      imports_go r include_wasi rest
                    else
                      (imports_go r include_wasi rest).map
                        ((key, WorldItem.interface id) :: ·)

/-- `Querier::imports`, the produced iterator collected to a list. -/
def Querier.imports (q : Querier) (include_wasi : Bool) :
    Option (List (WorldKey × WorldItem)) :=
  match q.world with
  | none => none
  | some world => imports_go q.resolve include_wasi world.imports

/-- wit-component `DecodedWasm` (external): a resolved component or a bare
WIT package. -/
inductive DecodedWasm where
  | component (r : Resolve) (w : WorldId)
  | witPackage

/-- `Querier::from_bytes`, parameterized by the external decode step
(`wit_component::decode`, a black box per the spec). The outer `Option` is
a panic inside `Querier::new`; the `Except` layer carries the recoverable
`anyhow` errors with their context messages. -/
def Querier.from_bytes (decode : List Nat → Except String DecodedWasm)
    (component_bytes : List Nat) : Option (Except String Querier) :=
  match decode component_bytes with
  | .error e =>
      some (.error ("could not decode given file as a WebAssembly component: "
        ++ e))
  | .ok .witPackage =>
      some (.error
        "found wit package instead of the expect WebAssembly component")
  | .ok (.component r w) =>
      match Querier.new r w with
      | some q => some (.ok q)
      | none => none

/-- `Querier::check_dynamic_import`: decode the other component, look up
the import here and the export there, then compare params and results. -/
def Querier.check_dynamic_import (decode : List Nat → Except String DecodedWasm)
    (q : Querier) (func_name : String) (component_bytes : List Nat) :
    Option (Except String Unit) :=
  match Querier.from_bytes decode component_bytes with
  | none => none
  | some (.error e) => some (.error e)
  | some (.ok other) =>
      match q.imported_function func_name with
      | none => none
      | some none =>
          some (.error ("no import with name \x27" ++ func_name ++ "\x27"))
      | some (some imp) =>
          match other.exported_function func_name with
          | none => none
          | some none =>
              some (.error ("no export with name \x27" ++ func_name ++ "\x27"))
          | some (some exp) =>
              if imp.params ≠ exp.params then
                some (.error "params not equal")
              else if imp.results ≠ exp.results then
                some (.error "return values not equal")
              else some (.ok ())

/-! Concrete fixtures used by the witness theorems. -/

/-- A resolve whose type arena holds one alias `a32 = u32` at id 0; world 0
is empty. -/
def renderResolve : Resolve where
  worlds := fun w => if w = 0 then some ⟨[], []⟩ else none
  interfaces := fun _ => none
  packages := fun _ => none
  types := fun i => if i = 0 then some ⟨some "a32", .type .u32⟩ else none
  interface_name_of := fun _ => ""

def qR : Querier := ⟨renderResolve, 0⟩

/-- C2: a `result` type definition renders as `result<A, B>` when both the
ok and err types are present, `result<A>` when exactly one is, and bare
`result` when neither is, the inner types being rendered Collapsed whatever
the outer expansion mode is. -/
theorem result_rendering (q : Querier) (fuel : Nat) (name : Option String)
    (e : Expansion) (A B : Ty) (a b : String) :
    (q.display_wit_type fuel A .collapsed = .ok a →
      q.display_wit_type fuel B .collapsed = .ok b →
      q.display_wit_type_def fuel ⟨name, .result (some A) (some B)⟩ e
        = .ok ("result<" ++ a ++ ", " ++ b ++ ">"))
    ∧ (q.display_wit_type fuel A .collapsed = .ok a →
      q.display_wit_type_def fuel ⟨name, .result (some A) none⟩ e
        = .ok ("result<" ++ a ++ ">"))
    ∧ (q.display_wit_type fuel B .collapsed = .ok b →
      q.display_wit_type_def fuel ⟨name, .result none (some B)⟩ e
        = .ok ("result<" ++ b ++ ">"))
    ∧ q.display_wit_type_def fuel ⟨name, .result none none⟩ e = .ok "result" := by
  refine ⟨?_, ?_, ?_, ?_⟩
  · intro ha hb
    simp only [Querier.display_wit_type] at ha hb
    simp only [Querier.display_wit_type_def, display_wit_type_def_go]
    rw [ha, hb]; rfl
  · intro ha
    simp only [Querier.display_wit_type] at ha
    simp only [Querier.display_wit_type_def, display_wit_type_def_go]
    rw [ha]; rfl
  · intro hb
    simp only [Querier.display_wit_type] at hb
    simp only [Querier.display_wit_type_def, display_wit_type_def_go]
    rw [hb]; rfl
  · rfl

/-- C2 witness at concrete inputs. -/
theorem result_rendering_witness :
    Querier.display_wit_type_def qR 0 ⟨some "r", .result (some .u32) (some .string)⟩ .collapsed
      = .ok "result<u32, string>"
    ∧ Querier.display_wit_type_def qR 0 ⟨some "r", .result (some .u32) none⟩ (.expanded 1)
      = .ok "result<u32>"
    ∧ Querier.display_wit_type_def qR 0 ⟨some "r", .result none (some .string)⟩ .collapsed
      = .ok "result<string>"
    ∧ Querier.display_wit_type_def qR 0 ⟨some "r", .result none none⟩ .collapsed
      = .ok "result" :=
  ⟨(result_rendering qR 0 (some "r") .collapsed .u32 .string "u32" "string").1 rfl rfl,
   (result_rendering qR 0 (some "r") (.expanded 1) .u32 .string "u32" "string").2.1 rfl,
   (result_rendering qR 0 (some "r") .collapsed .u32 .string "u32" "string").2.2.1 rfl,
   (result_rendering qR 0 (some "r") .collapsed .u32 .string "u32" "string").2.2.2⟩

/-- C8: `option`, `list` and `tuple` render their inner type(s) Collapsed
regardless of the outer expansion mode, producing `option<T>`, `list<T>` and
the comma-space separated `tuple<T1, T2, ...>`. -/
theorem container_inner_collapsed (q : Querier) (fuel : Nat)
    (name : Option String) (e : Expansion) (T : Ty) (a : String)
    (ts : List Ty) (inner : List String) :
    (q.display_wit_type fuel T .collapsed = .ok a →
      q.display_wit_type_def fuel ⟨name, .option T⟩ e
        = .ok ("option<" ++ a ++ ">"))
    ∧ (q.display_wit_type fuel T .collapsed = .ok a →
      q.display_wit_type_def fuel ⟨name, .list T⟩ e
        = .ok ("list<" ++ a ++ ">"))
    ∧ (ts.mapM (fun t => q.display_wit_type fuel t .collapsed) = .ok inner →
      q.display_wit_type_def fuel ⟨name, .tuple ts⟩ e
        = .ok ("tuple<" ++ String.intercalate ", " inner ++ ">")) := by
  refine ⟨?_, ?_, ?_⟩
  · intro ha
    simp only [Querier.display_wit_type] at ha
    simp only [Querier.display_wit_type_def, display_wit_type_def_go]
    rw [ha]; rfl
  · intro ha
    simp only [Querier.display_wit_type] at ha
    simp only [Querier.display_wit_type_def, display_wit_type_def_go]
    rw [ha]; rfl
  · intro hts
    simp only [Querier.display_wit_type] at hts
    simp only [Querier.display_wit_type_def, display_wit_type_def_go]
    rw [hts]; rfl

/-- C8 witness at concrete inputs. -/
theorem container_inner_collapsed_witness :
    Querier.display_wit_type_def qR 1 ⟨none, .option (.id 0)⟩ (.expanded 1)
      = .ok "option<u32>"
    ∧ Querier.display_wit_type_def qR 1 ⟨none, .list .string⟩ (.expanded 2)
      = .ok "list<string>"
    ∧ Querier.display_wit_type_def qR 1 ⟨none, .tuple [.u32, .string, .id 0]⟩ (.expanded 1)
      = .ok "tuple<u32, string, u32>" :=
  ⟨(container_inner_collapsed qR 1 none (.expanded 1) (.id 0) "u32" [] []).1 rfl,
   (container_inner_collapsed qR 1 none (.expanded 2) .string "string" [] []).2.1 rfl,
   (container_inner_collapsed qR 1 none (.expanded 1) .bool ""
      [.u32, .string, .id 0] ["u32", "string", "u32"]).2.2 rfl⟩

/-- C3: a named enum or record renders Collapsed as its declared name; with
Expanded(col), col ≥ 1, it renders as the keyword, an opening brace, one
line per case (bare name) or field (`name: CollapsedType`) indented by
4·col spaces and joined by comma-newline, and a closing brace indented by
4·(col−1) spaces. -/
theorem named_aggregate_rendering (q : Querier) (fuel : Nat) (name : String)
    (cases : List String) (fields : List (String × Ty)) (col : Nat)
    (lines : List String) :
    (q.display_wit_type_def fuel ⟨some name, .enum cases⟩ .collapsed = .ok name)
    ∧ (q.display_wit_type_def fuel ⟨some name, .record fields⟩ .collapsed
        = .ok name)
    ∧ (1 ≤ col →
      q.display_wit_type_def fuel ⟨some name, .enum cases⟩ (.expanded col)
        = .ok ("enum \x7b\n"
            ++ String.intercalate ",\n"
                (cases.map (fun c => spacesOf (4 * col) ++ c))
            ++ "\n" ++ spacesOf (4 * (col - 1)) ++ "\x7d"))
    ∧ (1 ≤ col →
      fields.mapM (fun f => (q.display_wit_type fuel f.2 .collapsed).map
          (fun s => f.1 ++ ": " ++ s)) = .ok lines →
      q.display_wit_type_def fuel ⟨some name, .record fields⟩ (.expanded col)
        = .ok ("record \x7b\n"
            ++ String.intercalate ",\n"
                (lines.map (fun l => spacesOf (4 * col) ++ l))
            ++ "\n" ++ spacesOf (4 * (col - 1)) ++ "\x7d")) := by
  refine ⟨rfl, rfl, ?_, ?_⟩
  · intro hcol
    obtain ⟨c, rfl⟩ : ∃ c, col = c + 1 := ⟨col - 1, (Nat.succ_pred_eq_of_pos hcol).symm⟩
    simp only [Querier.display_wit_type_def, display_wit_type_def_go,
      Nat.add_sub_cancel, Nat.mul_comm]
    rfl
  · intro hcol hf
    obtain ⟨c, rfl⟩ : ∃ c, col = c + 1 := ⟨col - 1, (Nat.succ_pred_eq_of_pos hcol).symm⟩
    simp only [Querier.display_wit_type] at hf
    have hf' : fields.mapM
        (render_record_field fun t e => display_wit_type_go q.resolve fuel t e)
        = Except.ok lines := hf
    simp only [Querier.display_wit_type_def, display_wit_type_def_go]
    rw [hf']
    simp only [Nat.add_sub_cancel, Nat.mul_comm]
    rfl

/-- C3 witness: the spec's own examples `E = enum [a, b]` and
`R = record [(x, u32), (y, string)]` at indent level 1. -/
theorem named_aggregate_rendering_witness :
    Querier.display_wit_type_def qR 0 ⟨some "E", .enum ["a", "b"]⟩ .collapsed
      = .ok "E"
    ∧ Querier.display_wit_type_def qR 0 ⟨some "E", .enum ["a", "b"]⟩ (.expanded 1)
      = .ok "enum \x7b\n    a,\n    b\n\x7d"
    ∧ Querier.display_wit_type_def qR 0
        ⟨some "R", .record [("x", .u32), ("y", .string)]⟩ .collapsed
      = .ok "R"
    ∧ Querier.display_wit_type_def qR 0
        ⟨some "R", .record [("x", .u32), ("y", .string)]⟩ (.expanded 1)
      = .ok "record \x7b\n    x: u32,\n    y: string\n\x7d" := by
  refine ⟨(named_aggregate_rendering qR 0 "E" ["a", "b"] [] 1 []).1, ?_,
    (named_aggregate_rendering qR 0 "R" [] [("x", .u32), ("y", .string)] 1 []).2.1, ?_⟩
  · rw [(named_aggregate_rendering qR 0 "E" ["a", "b"] [] 1 []).2.2.1 (by decide)]
    rfl
  · rw [(named_aggregate_rendering qR 0 "R" [] [("x", .u32), ("y", .string)] 1
      ["x: u32", "y: string"]).2.2.2 (by decide) rfl]
    rfl

/-- C7: an alias type definition renders, in either expansion mode, exactly
as the aliased type reference does (no wrapping syntax); likewise the
reference that indirects to the alias (one arena step, hence one fuel unit)
renders exactly as the aliased reference. -/
theorem alias_transparent (q : Querier) (fuel : Nat) (i : TypeId)
    (typ : TypeDef) (t : Ty) (e : Expansion)
    (hres : q.resolve.types i = some typ) (hkind : typ.kind = .type t) :
    q.display_wit_type_def fuel typ e = q.display_wit_type fuel t e
    ∧ q.display_wit_type (Nat.succ fuel) (.id i) e = q.display_wit_type fuel t e := by
  have h1 : q.display_wit_type_def fuel typ e = q.display_wit_type fuel t e := by
    simp only [Querier.display_wit_type_def, display_wit_type_def_go, hkind,
      Querier.display_wit_type]
  refine ⟨h1, ?_⟩
  rw [← h1]
  simp only [Querier.display_wit_type, display_wit_type_go, hres,
    Querier.display_wit_type_def]

/-- C7 witness: the alias `a32 = u32` at type id 0 of the fixture. -/
theorem alias_transparent_witness :
    Querier.display_wit_type_def qR 0 ⟨some "a32", .type .u32⟩ .collapsed
      = Querier.display_wit_type qR 0 .u32 .collapsed
    ∧ Querier.display_wit_type qR 1 (.id 0) .collapsed
      = Querier.display_wit_type qR 0 .u32 .collapsed :=
  alias_transparent qR 0 0 ⟨some "a32", .type .u32⟩ .u32 .collapsed rfl rfl

/-- C9: the unsupported kinds (resource, handle, flags, variant, future,
stream, and the unresolved placeholder) abort fatally in either mode, and a
nameless enum or record aborts fatally in Collapsed mode; no string is ever
returned in these cases. -/
theorem unsupported_kinds_panic (q : Querier) (fuel : Nat) (typ : TypeDef)
    (e : Expansion)
    (h : (typ.kind = .resource ∨ typ.kind = .handle ∨ typ.kind = .flags
        ∨ typ.kind = .variant ∨ typ.kind = .future ∨ typ.kind = .stream
        ∨ typ.kind = .unknown)
      ∨ (typ.name = none ∧ e = .collapsed
        ∧ ((∃ cs, typ.kind = .enum cs) ∨ (∃ fs, typ.kind = .record fs)))) :
    q.display_wit_type_def fuel typ e = .error .panic := by
  rcases h with h | ⟨hname, he, hk | hk⟩
  · rcases h with h | h | h | h | h | h | h <;>
      simp only [Querier.display_wit_type_def, display_wit_type_def_go, h]
  · obtain ⟨cs, hk⟩ := hk
    simp only [Querier.display_wit_type_def, display_wit_type_def_go, hk,
      hname, he]
  · obtain ⟨fs, hk⟩ := hk
    simp only [Querier.display_wit_type_def, display_wit_type_def_go, hk,
      hname, he]

/-- C9 witness: a resource and a nameless record under Collapsed. -/
theorem unsupported_kinds_panic_witness :
    Querier.display_wit_type_def qR 0 ⟨some "res", .resource⟩ (.expanded 1)
      = .error .panic
    ∧ Querier.display_wit_type_def qR 0 ⟨none, .record [("x", .u32)]⟩ .collapsed
      = .error .panic :=
  ⟨unsupported_kinds_panic qR 0 ⟨some "res", .resource⟩ (.expanded 1)
      (Or.inl (Or.inl rfl)),
   unsupported_kinds_panic qR 0 ⟨none, .record [("x", .u32)]⟩ .collapsed
      (Or.inr ⟨rfl, rfl, Or.inr ⟨[("x", .u32)], rfl⟩⟩)⟩

/-- C10: Expanded(0) is not well-defined for an enum or record — the
closing-brace indent `col - 1` underflows the `u8`, so an enum aborts
fatally and a record never returns a rendered string (it aborts once its
field texts are computed). -/
theorem expanded_zero_underflow (q : Querier) (fuel : Nat) (typ : TypeDef) :
    ((∃ cs, typ.kind = .enum cs) →
      q.display_wit_type_def fuel typ (.expanded 0) = .error .panic)
    ∧ ((∃ fs, typ.kind = .record fs) →
      ∀ s, q.display_wit_type_def fuel typ (.expanded 0) ≠ .ok s) := by
  constructor
  · rintro ⟨cs, hk⟩
    simp only [Querier.display_wit_type_def, display_wit_type_def_go, hk]
  · rintro ⟨fs, hk⟩ s
    simp only [Querier.display_wit_type_def, display_wit_type_def_go, hk]
    cases hmap : fs.mapM
        (render_record_field fun t e => display_wit_type_go q.resolve fuel t e) with
    | error er => exact fun h => Except.noConfusion h
    | ok l => exact fun h => Except.noConfusion h

/-- C10 witness: the spec example enum `E` and record `R` at level 0. -/
theorem expanded_zero_underflow_witness :
    Querier.display_wit_type_def qR 0 ⟨some "E", .enum ["a", "b"]⟩ (.expanded 0)
      = .error .panic
    ∧ Querier.display_wit_type_def qR 0
        ⟨some "R", .record [("x", .u32)]⟩ (.expanded 0) ≠ .ok "record" :=
  ⟨(expanded_zero_underflow qR 0 ⟨some "E", .enum ["a", "b"]⟩).1 ⟨["a", "b"], rfl⟩,
   (expanded_zero_underflow qR 0 ⟨some "R", .record [("x", .u32)]⟩).2
      ⟨[("x", .u32)], rfl⟩ "record"⟩

/-- The per-entry test the claims describe: the import key is an interface
whose interface resolves, has an owning package that resolves, and that
package's namespace is exactly "wasi". -/
def wasi_interface_import (r : Resolve) : WorldKey → Bool
  | .interface i =>
      match r.interfaces i with
      | some interface =>
          match interface.package with
          | some package_id =>
              match r.packages package_id with
              | some package =>
                  if package.name.nspace = "wasi" then true else false
              | none => false
          | none => false
      | none => false
  | .name _ => false

theorem imports_wasi_go_iff (r : Resolve) (l : List (WorldKey × WorldItem)) :
    ∀ b, imports_wasi_go r l = some b →
      (b = true ↔ ∃ p ∈ l, wasi_interface_import r p.1 = true) := by
  induction l with
  | nil =>
    intro b h
    injection h with h
    subst h
    simp
  | cons hd rest ih =>
    intro b h
    obtain ⟨k, it⟩ := hd
    cases k with
    | name s =>
      simp only [imports_wasi_go] at h
      simp [wasi_interface_import, ih b h]
    | interface i =>
      simp only [imports_wasi_go] at h
      split at h
      · cases h
      · rename_i intf hi
        split at h
        · rename_i pid hp
          split at h
          · rename_i pkg hpk
            split at h
            · rename_i hw
              injection h with h
              subst h
              simp [wasi_interface_import, hi, hp, hpk, hw]
            · rename_i hw
              simp [wasi_interface_import, hi, hp, hpk, hw, ih b h]
          · rename_i hpk
            simp [wasi_interface_import, hi, hp, hpk, ih b h]
        · rename_i hp
          simp [wasi_interface_import, hi, hp, ih b h]

/-- C4: `imports_wasi` (when it does not abort) returns true iff some
entry of the import table is an interface import whose owning package
has namespace exactly "wasi"; non-interface imports never make it true, and
an empty import set yields false. -/
theorem imports_wasi_iff (q : Querier) (w : World) (b : Bool)
    (hw : q.world = some w) (h : q.imports_wasi = some b) :
    (b = true ↔ ∃ p ∈ w.imports, wasi_interface_import q.resolve p.1 = true)
    ∧ (w.imports = [] → b = false)
    ∧ ((∀ p ∈ w.imports, ∀ i : InterfaceId, p.1 ≠ WorldKey.interface i) →
        b = false) := by
  unfold Querier.imports_wasi at h
  rw [hw] at h
  have hiff := imports_wasi_go_iff q.resolve w.imports b h
  refine ⟨hiff, ?_, ?_⟩
  · intro he
    cases b with
    | false => rfl
    | true =>
      obtain ⟨p, hp, _⟩ := hiff.mp rfl
      rw [he] at hp
      cases hp
  · intro hni
    cases b with
    | false => rfl
    | true =>
      obtain ⟨p, hp, hwasi⟩ := hiff.mp rfl
      cases hk : p.1 with
      | name s => rw [hk] at hwasi; cases hwasi
      | interface i => exact absurd hk (hni p hp i)

/-! Fixture: a world importing the wasi interface 0 (package 0, namespace
"wasi") and a bare function import named "dep". -/

def fFun : Function := ⟨"f", [("x", .u32)], .anon .string⟩

def wMix : World :=
  ⟨[(.interface 0, .interface 0), (.name "dep", .function fFun)], []⟩

def rMix : Resolve where
  worlds := fun w => if w = 0 then some wMix else none
  interfaces := fun i => if i = 0 then some ⟨some 0⟩ else none
  packages := fun p =>
    if p = 0 then some ⟨⟨"wasi", "io", some "0.2.0"⟩⟩ else none
  types := fun _ => none
  interface_name_of := fun _ => "wasi:io/poll@0.2.0"

def qMix : Querier := ⟨rMix, 0⟩

/-- C4 witness at the fixture world. -/
theorem imports_wasi_iff_witness :
    (true = true ↔ ∃ p ∈ wMix.imports,
        wasi_interface_import qMix.resolve p.1 = true)
    ∧ (wMix.imports = [] → true = false)
    ∧ ((∀ p ∈ wMix.imports, ∀ i : InterfaceId, p.1 ≠ WorldKey.interface i) →
        true = false) :=
  imports_wasi_iff qMix wMix true rfl (by decide)

theorem non_wasi_imports_go_spec (r : Resolve) (l : List (WorldKey × WorldItem)) :
    ∀ res, non_wasi_imports_go r l = some res →
      res = (l.filter (fun p => !(wasi_interface_import r p.1))).map
        (fun p => (r.name_world_key p.1, p.2)) := by
  induction l with
  | nil => intro res h; injection h with h; subst h; rfl
  | cons hd rest ih =>
    intro res h
    obtain ⟨k, it⟩ := hd
    cases k with
    | name s =>
      simp only [non_wasi_imports_go] at h
      cases hr : non_wasi_imports_go r rest with
      | none => rw [hr] at h; cases h
      | some t =>
        rw [hr] at h
        injection h with h
        subst h
        simp [wasi_interface_import, ih t hr]
    | interface i =>
      simp only [non_wasi_imports_go] at h
      split at h
      · cases h
      · rename_i intf hi
        split at h
        · rename_i pid hp
          split at h
          · rename_i hpk
            cases h
          · rename_i pkg hpk
            split at h
            · rename_i hw
              simp [wasi_interface_import, hi, hp, hpk, hw, ih res h]
            · rename_i hw
              cases hr : non_wasi_imports_go r rest with
              | none => rw [hr] at h; cases h
              | some t =>
                rw [hr] at h
                injection h with h
                subst h
                simp [wasi_interface_import, hi, hp, hpk, hw, ih t hr]
        · rename_i hp
          cases hr : non_wasi_imports_go r rest with
          | none => rw [hr] at h; cases h
          | some t =>
            rw [hr] at h
            injection h with h
            subst h
            simp [wasi_interface_import, hi, hp, ih t hr]

/-- C5: `non_wasi_imports` (when it does not abort) yields exactly the
rendered-name/item pairs of the imports that are not wasi-owned interface
imports, including every import lacking an owning package and every
non-interface import — in the world's original import order; the function is
pure, so re-iterating yields the same sequence. -/
theorem non_wasi_imports_spec (q : Querier) (w : World)
    (res : List (String × WorldItem)) (hw : q.world = some w)
    (h : q.non_wasi_imports = some res) :
    res = (w.imports.filter (fun p => !(wasi_interface_import q.resolve p.1))).map
      (fun p => (q.resolve.name_world_key p.1, p.2)) := by
  unfold Querier.non_wasi_imports at h
  rw [hw] at h
  exact non_wasi_imports_go_spec q.resolve w.imports res h

/-- C5 witness at the fixture world: only the bare "dep" import survives. -/
theorem non_wasi_imports_spec_witness :
    ([("dep", WorldItem.function fFun)] : List (String × WorldItem))
      = (wMix.imports.filter
          (fun p => !(wasi_interface_import qMix.resolve p.1))).map
        (fun p => (qMix.resolve.name_world_key p.1, p.2)) :=
  non_wasi_imports_spec qMix wMix [("dep", WorldItem.function fFun)] rfl (by decide)

/-- An import entry whose key is an interface key exactly when its item is
an interface item with the same identifier (the shape wit-parser produces
for interface imports registered under interface keys). -/
def key_item_aligned (p : WorldKey × WorldItem) : Prop :=
  ∀ i : InterfaceId, p.1 = WorldKey.interface i ↔ p.2 = WorldItem.interface i

theorem imports_go_true_eq (r : Resolve) (l : List (WorldKey × WorldItem)) :
    imports_go r true l = some l := by
  induction l with
  | nil => rfl
  | cons hd rest ih =>
    obtain ⟨k, it⟩ := hd
    cases it <;> simp [imports_go, ih]

theorem imports_go_false_vs_non_wasi (r : Resolve)
    (l : List (WorldKey × WorldItem))
    (halign : ∀ p ∈ l, key_item_aligned p) :
    ∀ l1 l2, imports_go r false l = some l1 → non_wasi_imports_go r l = some l2 →
      l2 = l1.map (fun p => (r.name_world_key p.1, p.2)) := by
  induction l with
  | nil =>
    intro l1 l2 h1 h2
    injection h1 with h1
    injection h2 with h2
    subst h1
    subst h2
    rfl
  | cons hd rest ih =>
    intro l1 l2 h1 h2
    obtain ⟨k, it⟩ := hd
    have hhd : key_item_aligned (k, it) := halign (k, it) (List.mem_cons_self _ _)
    have hrest : ∀ p ∈ rest, key_item_aligned p :=
      fun p hp => halign p (List.mem_cons_of_mem _ hp)
    cases it with
    | function f =>
      have hk : ∀ i, k ≠ WorldKey.interface i := by
        intro i hcontra
        exact WorldItem.noConfusion ((hhd i).mp hcontra)
      cases k with
      | interface i => exact absurd rfl (hk i)
      | name s =>
        simp only [imports_go] at h1
        simp only [non_wasi_imports_go] at h2
        cases hr1 : imports_go r false rest with
        | none => rw [hr1] at h1; cases h1
        | some t1 =>
          rw [hr1] at h1
          cases hr2 : non_wasi_imports_go r rest with
          | none => rw [hr2] at h2; cases h2
          | some t2 =>
            rw [hr2] at h2
            injection h1 with h1
            injection h2 with h2
            subst h1
            subst h2
            simp [ih hrest t1 t2 hr1 hr2]
    | type ty =>
      have hk : ∀ i, k ≠ WorldKey.interface i := by
        intro i hcontra
        exact WorldItem.noConfusion ((hhd i).mp hcontra)
      cases k with
      | interface i => exact absurd rfl (hk i)
      | name s =>
        simp only [imports_go] at h1
        simp only [non_wasi_imports_go] at h2
        cases hr1 : imports_go r false rest with
        | none => rw [hr1] at h1; cases h1
        | some t1 =>
          rw [hr1] at h1
          cases hr2 : non_wasi_imports_go r rest with
          | none => rw [hr2] at h2; cases h2
          | some t2 =>
            rw [hr2] at h2
            injection h1 with h1
            injection h2 with h2
            subst h1
            subst h2
            simp [ih hrest t1 t2 hr1 hr2]
    | interface iid =>
      have hk : k = WorldKey.interface iid := (hhd iid).mpr rfl
      subst hk
      simp only [imports_go, if_neg Bool.false_ne_true] at h1
      simp only [non_wasi_imports_go] at h2
      split at h1
      · cases h1
      · rename_i intf hi
        rw [hi] at h2
        dsimp only at h2
        split at h1
        · rename_i hp
          rw [hp] at h2
          dsimp only at h2
          cases hr1 : imports_go r false rest with
          | none => rw [hr1] at h1; cases h1
          | some t1 =>
            rw [hr1] at h1
            cases hr2 : non_wasi_imports_go r rest with
            | none => rw [hr2] at h2; cases h2
            | some t2 =>
              rw [hr2] at h2
              injection h1 with h1
              injection h2 with h2
              subst h1
              subst h2
              simp [ih hrest t1 t2 hr1 hr2]
        · rename_i pid hp
          rw [hp] at h2
          dsimp only at h2
          split at h1
          · rename_i hpk
            rw [hpk] at h2
            cases h1
          · rename_i pkg hpk
            rw [hpk] at h2
            dsimp only at h2
            split at h1
            · rename_i hw
              rw [if_pos hw] at h2
              exact ih hrest l1 l2 h1 h2
            · rename_i hw
              rw [if_neg hw] at h2
              cases hr1 : imports_go r false rest with
              | none => rw [hr1] at h1; cases h1
              | some t1 =>
                rw [hr1] at h1
                cases hr2 : non_wasi_imports_go r rest with
                | none => rw [hr2] at h2; cases h2
                | some t2 =>
                  rw [hr2] at h2
                  injection h1 with h1
                  injection h2 with h2
                  subst h1
                  subst h2
                  simp [ih hrest t1 t2 hr1 hr2]

/-! Fixture refuting C6 as stated: an import registered under a *name* key
whose item is an interface owned by a wasi-namespaced package (the shape an
inline `import x: interface \x7b...\x7d` in a wasi-namespaced package takes).
`non_wasi_imports` tests the key (a name key always passes), while
`imports(false)` tests the item (a wasi-owned interface item is dropped). -/

def w6 : World := ⟨[(.name "x", .interface 0)], []⟩

def r6 : Resolve where
  worlds := fun w => if w = 0 then some w6 else none
  interfaces := fun i => if i = 0 then some ⟨some 0⟩ else none
  packages := fun p => if p = 0 then some ⟨⟨"wasi", "http", none⟩⟩ else none
  types := fun _ => none
  interface_name_of := fun _ => "wasi:http/types"

def q6 : Querier := ⟨r6, 0⟩

/-- C6 counterexample: at `q6` the entries yielded by `imports(false)` are
not the entries yielded by `non_wasi_imports` — the former drops the import
(item-based test), the latter keeps it (key-based test) — so no list `l`
returned by `imports(false)` renders to the `non_wasi_imports` output. -/
theorem imports_vs_non_wasi_counterexample :
    Querier.imports q6 false = some []
    ∧ Querier.non_wasi_imports q6 = some [("x", WorldItem.interface 0)]
    ∧ ¬ ∃ l, Querier.imports q6 false = some l
        ∧ Querier.non_wasi_imports q6
          = some (l.map (fun p => (q6.resolve.name_world_key p.1, p.2))) := by
  refine ⟨by decide, by decide, ?_⟩
  rintro ⟨l, h1, h2⟩
  have he : some ([] : List (WorldKey × WorldItem)) = some l :=
    (show Querier.imports q6 false = some [] by decide).symm.trans h1
  injection he with he
  subst he
  exact absurd h2 (by decide)

/-- C6 amended: `imports(true)` yields every import unchanged; when every
entry's key is an interface key exactly iff its item is an interface
item with the same identifier, `imports(false)` yields (when neither side
aborts) exactly the underlying entries of `non_wasi_imports`, in the same
order, only without rendering the keys to strings. -/
theorem imports_filter_amended (q : Querier) (w : World)
    (hw : q.world = some w)
    (halign : ∀ p ∈ w.imports, key_item_aligned p) :
    q.imports true = some w.imports
    ∧ ∀ l1 l2, q.imports false = some l1 → q.non_wasi_imports = some l2 →
        l2 = l1.map (fun p => (q.resolve.name_world_key p.1, p.2)) := by
  constructor
  · unfold Querier.imports
    rw [hw]
    exact imports_go_true_eq q.resolve w.imports
  · intro l1 l2 h1 h2
    unfold Querier.imports at h1
    rw [hw] at h1
    unfold Querier.non_wasi_imports at h2
    rw [hw] at h2
    exact imports_go_false_vs_non_wasi q.resolve w.imports halign l1 l2 h1 h2

/-- C6 amended witness at the aligned fixture world. -/
theorem imports_filter_amended_witness :
    Querier.imports qMix true = some wMix.imports
    ∧ ([("dep", WorldItem.function fFun)] : List (String × WorldItem))
      = ([(WorldKey.name "dep", WorldItem.function fFun)]
          : List (WorldKey × WorldItem)).map
          (fun p => (qMix.resolve.name_world_key p.1, p.2)) := by
  have halign : ∀ p ∈ wMix.imports, key_item_aligned p := by
    intro p hp
    have hp' : p = (WorldKey.interface 0, WorldItem.interface 0)
        ∨ p = (WorldKey.name "dep", WorldItem.function fFun) := by
      simpa [wMix] using hp
    rcases hp' with rfl | rfl <;> intro i <;> simp [key_item_aligned]
  have h := imports_filter_amended qMix wMix rfl halign
  exact ⟨h.1, h.2 [(WorldKey.name "dep", WorldItem.function fFun)]
    [("dep", WorldItem.function fFun)] (by decide) (by decide)⟩

/-- C1: given a second component that decodes and validates to `other`, the
check succeeds iff the found import's and export's parameter lists and
result lists are structurally equal; a mismatch yields the error naming the
differing side ("params" checked first, then "return values"); a missed
lookup of import or export yields the error naming the missing function. -/
theorem check_dynamic_import_spec
    (decode : List Nat → Except String DecodedWasm) (q : Querier)
    (name : String) (bytes : List Nat) (r : Resolve) (w : WorldId)
    (other : Querier) (hdec : decode bytes = .ok (.component r w))
    (hnew : Querier.new r w = some other) :
    (∀ f g, q.imported_function name = some (some f) →
      other.exported_function name = some (some g) →
      ((q.check_dynamic_import decode name bytes = some (.ok ())
          ↔ (f.params = g.params ∧ f.results = g.results))
        ∧ (f.params ≠ g.params →
            q.check_dynamic_import decode name bytes
              = some (.error "params not equal"))
        ∧ (f.params = g.params → f.results ≠ g.results →
            q.check_dynamic_import decode name bytes
              = some (.error "return values not equal"))))
    ∧ (q.imported_function name = some none →
        q.check_dynamic_import decode name bytes
          = some (.error ("no import with name \x27" ++ name ++ "\x27")))
    ∧ (∀ f, q.imported_function name = some (some f) →
        other.exported_function name = some none →
        q.check_dynamic_import decode name bytes
          = some (.error ("no export with name \x27" ++ name ++ "\x27"))) := by
  have hfb : Querier.from_bytes decode bytes = some (.ok other) := by
    unfold Querier.from_bytes
    rw [hdec]
    dsimp only
    rw [hnew]
  refine ⟨?_, ?_, ?_⟩
  · intro f g hf hg
    unfold Querier.check_dynamic_import
    rw [hfb]
    dsimp only
    rw [hf]
    dsimp only
    rw [hg]
    dsimp only
    by_cases hp : f.params = g.params
    · by_cases hr : f.results = g.results
      · simp [hp, hr]
      · simp [hp, hr]
    · simp [hp]
  · intro hf
    unfold Querier.check_dynamic_import
    rw [hfb]
    dsimp only
    rw [hf]
  · intro f hf hg
    unfold Querier.check_dynamic_import
    rw [hfb]
    dsimp only
    rw [hf]
    dsimp only
    rw [hg]

/-! Fixtures for the compatibility check: `qImp` imports `f(x: u32) ->
string`; one counterpart component exports the same signature, another
exports `f(x: u32) -> u32`. -/

def gFun : Function := ⟨"f", [("x", .u32)], .anon .u32⟩

def rExp : Resolve where
  worlds := fun w => if w = 0 then some ⟨[], [(.name "f", .function fFun)]⟩ else none
  interfaces := fun _ => none
  packages := fun _ => none
  types := fun _ => none
  interface_name_of := fun _ => ""

def rExpBad : Resolve where
  worlds := fun w => if w = 0 then some ⟨[], [(.name "f", .function gFun)]⟩ else none
  interfaces := fun _ => none
  packages := fun _ => none
  types := fun _ => none
  interface_name_of := fun _ => ""

def rImp : Resolve where
  worlds := fun w => if w = 0 then some ⟨[(.name "f", .function fFun)], []⟩ else none
  interfaces := fun _ => none
  packages := fun _ => none
  types := fun _ => none
  interface_name_of := fun _ => ""

def qImpC : Querier := ⟨rImp, 0⟩

def decodeOk : List Nat → Except String DecodedWasm :=
  fun _ => .ok (.component rExp 0)

def decodeBad : List Nat → Except String DecodedWasm :=
  fun _ => .ok (.component rExpBad 0)

/-- C1 witness: the spec's example — matching signatures succeed, a `u32`
return in place of `string` reports the return-value mismatch, and a
missing import name is reported. -/
theorem check_dynamic_import_spec_witness :
    Querier.check_dynamic_import decodeOk qImpC "f" [] = some (.ok ())
    ∧ Querier.check_dynamic_import decodeBad qImpC "f" []
      = some (.error "return values not equal")
    ∧ Querier.check_dynamic_import decodeOk qImpC "g" []
      = some (.error "no import with name \x27g\x27") := by
  refine ⟨?_, ?_, ?_⟩
  · exact ((check_dynamic_import_spec decodeOk qImpC "f" [] rExp 0
      ⟨rExp, 0⟩ rfl rfl).1 fFun fFun (by decide) (by decide)).1.mpr ⟨rfl, rfl⟩
  · exact ((check_dynamic_import_spec decodeBad qImpC "f" [] rExpBad 0
      ⟨rExpBad, 0⟩ rfl rfl).1 fFun gFun (by decide) (by decide)).2.2 rfl (by decide)
  · exact (check_dynamic_import_spec decodeOk qImpC "g" [] rExp 0
      ⟨rExp, 0⟩ rfl rfl).2.1 (by decide)
